import Mathlib

/-!
Verification of the sample-CSV generator
(`apps/spinner-extension/samples/generate_csvs.py`).

The script builds two fixed name tables, generates batches of participant
records with random names and contiguous zero-padded ticket numbers, and
serializes each batch to a CSV file via `csv.DictWriter` (default dialect:
comma delimiter, `QUOTE_MINIMAL` quoting, CRLF line terminator).

The embedding below is a shallow one: file contents are `List Char`,
Python's `random.choice` is replaced by explicit index oracles
`rf rl : Nat → Nat` (reduced modulo the table length, as `random.choice`
always indexes within bounds), and `str`/`zfill` are modelled by an
executable decimal rendering `toDec` and left-zero-padding `zfill`.
-/

namespace RaffleCsv

/-- The fixed table of first names, verbatim from the script. -/
def first_names : List String := [
  "James", "Mary", "Robert", "Patricia", "John", "Jennifer", "Michael", "Linda",
  "David", "Elizabeth", "William", "Barbara", "Richard", "Susan", "Joseph", "Jessica",
  "Thomas", "Sarah", "Christopher", "Karen", "Charles", "Lisa", "Daniel", "Nancy",
  "Matthew", "Betty", "Anthony", "Helen", "Mark", "Sandra", "Donald", "Donna",
  "Steven", "Carol", "Kenneth", "Ruth", "Andrew", "Sharon", "Joshua", "Michelle",
  "Kevin", "Laura", "Brian", "Emily", "George", "Kimberly", "Timothy", "Deborah",
  "Ronald", "Dorothy", "Edward", "Amy", "Jason", "Angela", "Jeffrey", "Ashley"]

/-- The fixed table of last names, verbatim from the script. -/
def last_names : List String := [
  "Smith", "Johnson", "Williams", "Brown", "Jones", "Garcia", "Miller", "Davis",
  "Rodriguez", "Martinez", "Hernandez", "Lopez", "Gonzalez", "Wilson", "Anderson",
  "Thomas", "Taylor", "Moore", "Jackson", "Martin", "Lee", "Perez", "Thompson",
  "White", "Harris", "Sanchez", "Clark", "Ramirez", "Lewis", "Robinson", "Walker",
  "Young", "Allen", "King", "Wright", "Scott", "Torres", "Nguyen", "Hill",
  "Flores", "Green", "Adams", "Nelson", "Baker", "Hall", "Rivera", "Campbell",
  "Mitchell", "Carter", "Roberts", "Gomez", "Phillips", "Evans", "Turner", "Diaz"]

/-- One generated row: the dict
`{'first': ..., 'last': ..., 'ticket_number': ...}` built by the script. -/
structure Participant where
  first : String
  last : String
  ticket_number : String
deriving DecidableEq, Repr

/-- The decimal digit characters produced by Python's `str` on `0..9`. -/
def digitChar : Nat → Char
  | 0 => '0' | 1 => '1' | 2 => '2' | 3 => '3' | 4 => '4'
  | 5 => '5' | 6 => '6' | 7 => '7' | 8 => '8' | _ => '9'

/-- Fuel-indexed decimal rendering: structurally recursive on `fuel` so
that the kernel can evaluate it.  With enough fuel (`n / 10 ≤ fuel`) it
computes the decimal digits of `n`, most significant first. -/
def toDecFuel : Nat → Nat → List Char
  | 0, n => [digitChar n]
  | fuel + 1, n =>
    if n < 10 then [digitChar n]
    else toDecFuel fuel (n / 10) ++ [digitChar (n % 10)]

/-- Python's `str(n)` for a nonnegative integer: standard decimal digits,
most significant first, no leading zeros (except `"0"` itself).
(`n` itself is always enough fuel.) -/
def toDec (n : Nat) : List Char := toDecFuel n n

/-- Python's `str.zfill(w)` on a digit string: pad on the left with `'0'`
up to width `w` (a string already at least that wide is unchanged). -/
def zfill (w : Nat) (s : List Char) : List Char :=
  List.replicate (w - s.length) '0' ++ s

/-- Number of decimal digits of `n`, i.e. `len(str(n))`. -/
def numDigits (n : Nat) : Nat := (toDec n).length

/-- `generate_participants(count, start_ticket)` from the script.

The Python loop is `for i in range(count)`, which performs
`max(count, 0)` iterations — hence `count : Int` and `count.toNat`.
`random.choice(tbl)` returns `tbl[i]` for some in-range index chosen by
the RNG; it is modelled by the oracles `rf`, `rl` giving the chosen index
at each iteration (reduced mod the table length, which is the identity on
the in-range indices the RNG actually produces).  Each iteration appends
`{'first': ..., 'last': ...,
'ticket_number': str(start_ticket + i).zfill(len(str(start_ticket + count - 1)))}`. -/
def generate_participants (rf rl : Nat → Nat) (count : Int) (start_ticket : Nat) :
    List Participant :=
  (List.range count.toNat).map fun i =>
    { first := first_names.get ⟨rf i % first_names.length, Nat.mod_lt _ (by decide)⟩
      last := last_names.get ⟨rl i % last_names.length, Nat.mod_lt _ (by decide)⟩
      ticket_number :=
        String.mk (zfill (numDigits (start_ticket + count.toNat - 1))
          (toDec (start_ticket + i))) }

/-- CRLF: the default line terminator of Python's `csv` writer. -/
def crlf : List Char := ['\r', '\n']

/-- The header row text written by `writer.writeheader()` for
`fieldnames=['first', 'last', 'ticket_number']`. -/
def headerChars : List Char := "first,last,ticket_number".data

/-- A character that forces quoting under `QUOTE_MINIMAL`: the delimiter,
the quote character, or a line-terminator character. -/
def csvBadChar (c : Char) : Bool :=
  c == ',' || c == '"' || c == '\r' || c == '\n'

/-- Does a field need quoting under `QUOTE_MINIMAL`? -/
def needsQuote (f : List Char) : Bool := f.any csvBadChar

/-- Double every quote character inside a field (Python `doublequote=True`). -/
def escQuotes (f : List Char) : List Char :=
  f.flatMap fun c => if c == '"' then ['"', '"'] else [c]

/-- Serialization of one field by Python's `csv` writer with the default
dialect: quote (and double inner quotes) exactly when the field contains
the delimiter, the quote character, or a line break. -/
def pyField (f : List Char) : List Char :=
  if needsQuote f then '"' :: (escQuotes f ++ ['"']) else f

/-- One data row as written by `writer.writerows`: the three serialized
fields joined by commas, then CRLF. -/
def rowChars (r : Participant) : List Char :=
  pyField r.first.data ++ [','] ++ pyField r.last.data ++ [','] ++
    pyField r.ticket_number.data ++ crlf

/-- `write_csv(filename, participants)` from the script, as the byte
content of the produced file: `writer.writeheader()` emits the header row,
then `writer.writerows(participants)` appends each row in order. -/
def write_csv (recs : List Participant) : List Char :=
  recs.foldl (fun acc r => acc ++ rowChars r) (headerChars ++ crlf)

/-- Split a character stream at each CRLF pair.  Yields the pieces between
line terminators; a stream ending in CRLF yields a trailing empty piece. -/
def splitCRLF : List Char → List (List Char)
  | [] => [[]]
  | [c] => [[c]]
  | c₁ :: c₂ :: rest =>
    if c₁ = '\r' ∧ c₂ = '\n' then [] :: splitCRLF rest
    else
      match splitCRLF (c₂ :: rest) with
      | [] => [[c₁]]
      | p :: ps => (c₁ :: p) :: ps

/-- Split a line at each comma (RFC 4180 field separation for a row of
unquoted fields). -/
def splitComma : List Char → List (List Char)
  | [] => [[]]
  | c :: rest =>
    if c = ',' then [] :: splitComma rest
    else
      match splitComma rest with
      | [] => [[c]]
      | p :: ps => (c :: p) :: ps

/-- May a field appear unquoted in an RFC 4180 file? (no delimiter, quote
character, or line-break character). -/
def fieldOk (f : List Char) : Bool := f.all fun c => !csvBadChar c

/-- Modelled from the spec: the repository contains no CSV reader, so the
"parsing the written CSV back into records" step of the round-trip property
is modelled from the spec's words — RFC 4180 comma separation of one data
line into the three fields `first`, `last`, `ticket_number`, restricted to
unquoted fields, which the spec states is the only case that arises
("quoting ... should not trigger since these names never require it"). -/
def parseLine (line : List Char) : Option Participant :=
  match splitComma line with
  | [f, l, t] =>
    if fieldOk f && fieldOk l && fieldOk t then
      some ⟨String.mk f, String.mk l, String.mk t⟩
    else none
  | _ => none

/-- Parse a list of data lines into records; fails if any line fails. -/
def parseLines : List (List Char) → Option (List Participant)
  | [] => some []
  | l :: ls =>
    match parseLine l, parseLines ls with
    | some r, some rs => some (r :: rs)
    | _, _ => none

/-- Modelled from the spec: parse a whole CSV file (as written by
`write_csv`) back into records — the file must consist of the exact header
row followed by CRLF-terminated data rows of three unquoted fields each. -/
def parse_csv (cs : List Char) : Option (List Participant) :=
  if (splitCRLF cs).head? = some headerChars ∧
      (splitCRLF cs).tail.getLast? = some [] then
    parseLines (splitCRLF cs).tail.dropLast
  else none

/-- Is a record free of characters that would force CSV quoting? -/
def goodRec (r : Participant) : Bool :=
  fieldOk r.first.data && fieldOk r.last.data && fieldOk r.ticket_number.data

/-- The text of one data line (between line terminators) for a record whose
fields need no quoting. -/
def lineOf (r : Participant) : List Char :=
  r.first.data ++ ',' :: (r.last.data ++ ',' :: r.ticket_number.data)

/-- The batch configuration executed by `main()`, in call order:
`(filename, count, start_ticket)` for each of the five
`generate_participants`/`write_csv` pairs. -/
def batches : List (String × Nat × Nat) := [
  ("raffle-5k.csv", 5000, 10001),
  ("raffle-10k.csv", 10000, 20001),
  ("raffle-25k.csv", 25000, 50001),
  ("raffle-50k.csv", 50000, 100001),
  ("raffle-100k.csv", 100000, 200001)]

/-! ## Helper lemmas: decimal strings -/

/-- Numeric value of a digit string (radix-10 left fold), used to invert
`toDec`/`zfill`. -/
def decVal (f : List Char) : Nat :=
  f.foldl (fun a c => a * 10 + (c.toNat - 48)) 0

theorem toDecFuel_congr : ∀ (fuel₁ : Nat) {fuel₂ n : Nat}, n / 10 ≤ fuel₁ →
    n / 10 ≤ fuel₂ → toDecFuel fuel₁ n = toDecFuel fuel₂ n := by
  intro fuel₁
  induction fuel₁ with
  | zero =>
    intro fuel₂ n h1 h2
    have hn : n < 10 := by omega
    cases fuel₂ with
    | zero => rfl
    | succ f₂ => simp [toDecFuel, hn]
  | succ f ih =>
    intro fuel₂ n h1 h2
    by_cases hn : n < 10
    · cases fuel₂ with
      | zero => simp [toDecFuel, hn]
      | succ f₂ => simp [toDecFuel, hn]
    · cases fuel₂ with
      | zero => omega
      | succ f₂ =>
        rw [toDecFuel, toDecFuel, if_neg hn, if_neg hn]
        congr 1
        exact ih (by omega) (by omega)

theorem toDec_small {n : Nat} (h : n < 10) : toDec n = [digitChar n] := by
  rw [toDec]
  cases n with
  | zero => rfl
  | succ k => rw [toDecFuel, if_pos h]

theorem toDec_big {n : Nat} (h : 10 ≤ n) :
    toDec n = toDec (n / 10) ++ [digitChar (n % 10)] := by
  obtain ⟨m, rfl⟩ : ∃ m, n = m + 1 := ⟨n - 1, by omega⟩
  show toDecFuel (m + 1) (m + 1) = _
  rw [toDecFuel, if_neg (by omega)]
  congr 1
  exact toDecFuel_congr m (by omega) (by omega)

theorem digitChar_toNat {d : Nat} (h : d < 10) : (digitChar d).toNat - 48 = d := by
  interval_cases d <;> rfl

theorem decVal_concat (xs : List Char) (c : Char) :
    decVal (xs ++ [c]) = decVal xs * 10 + (c.toNat - 48) := by
  simp [decVal, List.foldl_append]

theorem decVal_toDec (n : Nat) : decVal (toDec n) = n := by
  induction n using Nat.strong_induction_on with
  | _ n ih =>
    by_cases h : n < 10
    · rw [toDec_small h]
      show 0 * 10 + ((digitChar n).toNat - 48) = n
      rw [digitChar_toNat h]
      omega
    · rw [toDec_big (by omega), decVal_concat,
        ih (n / 10) (Nat.div_lt_self (by omega) (by omega)),
        digitChar_toNat (Nat.mod_lt _ (by omega))]
      omega

theorem decVal_cons_zero (xs : List Char) : decVal ('0' :: xs) = decVal xs := by
  rfl

theorem decVal_zfill (w : Nat) (s : List Char) : decVal (zfill w s) = decVal s := by
  unfold zfill
  induction w - s.length with
  | zero => simp
  | succ k ih => rw [List.replicate_succ, List.cons_append, decVal_cons_zero]; exact ih

theorem zfill_length (w : Nat) (s : List Char) :
    (zfill w s).length = max w s.length := by
  simp [zfill]
  omega

theorem toDec_length_pos (n : Nat) : 1 ≤ (toDec n).length := by
  by_cases h : n < 10
  · rw [toDec_small h]
    simp
  · rw [toDec_big (by omega)]
    simp

theorem toDec_length_mono {m n : Nat} (h : m ≤ n) :
    (toDec m).length ≤ (toDec n).length := by
  induction n using Nat.strong_induction_on generalizing m with
  | _ n ih =>
    by_cases hn : n < 10
    · rw [toDec_small (show m < 10 by omega), toDec_small hn]
      simp
    · by_cases hm : m < 10
      · rw [toDec_small hm, toDec_big (show (10 : Nat) ≤ n by omega)]
        have h1 := toDec_length_pos (n / 10)
        simp only [List.length_cons, List.length_nil, List.length_append]
        omega
      · rw [toDec_big (show (10 : Nat) ≤ m by omega),
          toDec_big (show (10 : Nat) ≤ n by omega)]
        have h2 := ih (n / 10) (Nat.div_lt_self (by omega) (by omega))
          (Nat.div_le_div_right h)
        simp only [List.length_cons, List.length_nil, List.length_append]
        omega

/-- The padded ticket string decodes back to the ticket value: `zfill`-ing
`toDec n` never changes its numeric value. -/
theorem decVal_zfill_toDec (w n : Nat) : decVal (zfill w (toDec n)) = n := by
  rw [decVal_zfill, decVal_toDec]

/-- The length of a zfilled decimal string of `m` at the width of `n`
is exactly `numDigits n` when `m ≤ n`. -/
theorem zfill_toDec_length {m n : Nat} (h : m ≤ n) :
    (zfill (numDigits n) (toDec m)).length = numDigits n := by
  rw [zfill_length]
  have := toDec_length_mono h
  unfold numDigits
  omega

/-! ## Helper lemmas: CSV serialization and parsing -/

theorem write_csv_foldl (recs : List Participant) (acc : List Char) :
    recs.foldl (fun a r => a ++ rowChars r) acc =
      acc ++ (recs.map rowChars).flatten := by
  induction recs generalizing acc with
  | nil => simp
  | cons r rs ih => simp [ih, List.append_assoc]

theorem write_csv_eq (recs : List Participant) :
    write_csv recs = headerChars ++ crlf ++ (recs.map rowChars).flatten := by
  rw [write_csv, write_csv_foldl, List.append_assoc]

theorem fieldOk_not_mem {f : List Char} (h : fieldOk f = true) {c : Char}
    (hc : csvBadChar c = true) : c ∉ f := by
  intro hm
  simp only [fieldOk, List.all_eq_true] at h
  have hb := h c hm
  rw [hc] at hb
  simp at hb

theorem needsQuote_eq_false {f : List Char} (h : fieldOk f = true) :
    needsQuote f = false := by
  cases hq : needsQuote f
  · rfl
  · unfold needsQuote at hq
    rw [List.any_eq_true] at hq
    obtain ⟨c, hc, hbad⟩ := hq
    exact absurd hc (fieldOk_not_mem h hbad)

theorem pyField_of_fieldOk {f : List Char} (h : fieldOk f = true) :
    pyField f = f := by
  rw [pyField, needsQuote_eq_false h]
  rfl

theorem goodRec_fields {r : Participant} (h : goodRec r = true) :
    fieldOk r.first.data = true ∧ fieldOk r.last.data = true ∧
      fieldOk r.ticket_number.data = true := by
  simp only [goodRec, Bool.and_eq_true] at h
  exact ⟨h.1.1, h.1.2, h.2⟩

theorem rowChars_good {r : Participant} (h : goodRec r = true) :
    rowChars r = lineOf r ++ crlf := by
  obtain ⟨h1, h2, h3⟩ := goodRec_fields h
  rw [rowChars, lineOf, pyField_of_fieldOk h1, pyField_of_fieldOk h2,
    pyField_of_fieldOk h3]
  simp [List.append_assoc]

theorem lineOf_no_cr {r : Participant} (h : goodRec r = true) :
    '\r' ∉ lineOf r := by
  obtain ⟨h1, h2, h3⟩ := goodRec_fields h
  intro hm
  simp only [lineOf, List.mem_append, List.mem_cons] at hm
  rcases hm with hm | hm | hm | hm | hm
  · exact fieldOk_not_mem h1 (by decide) hm
  · exact absurd hm (by decide)
  · exact fieldOk_not_mem h2 (by decide) hm
  · exact absurd hm (by decide)
  · exact fieldOk_not_mem h3 (by decide) hm

theorem splitComma_no_comma {f : List Char} (h : ',' ∉ f) :
    splitComma f = [f] := by
  induction f with
  | nil => rfl
  | cons c rest ih =>
    have hc : ¬ c = ',' := fun e => h (e ▸ List.mem_cons_self c rest)
    rw [splitComma, if_neg hc, ih (fun hm => h (List.mem_cons_of_mem _ hm))]

theorem splitComma_append {f : List Char} (rest : List Char) (h : ',' ∉ f) :
    splitComma (f ++ ',' :: rest) = f :: splitComma rest := by
  induction f with
  | nil =>
    rw [List.nil_append, splitComma, if_pos rfl]
  | cons c fs ih =>
    have hc : ¬ c = ',' := fun e => h (e ▸ List.mem_cons_self c fs)
    rw [List.cons_append, splitComma, if_neg hc,
      ih (fun hm => h (List.mem_cons_of_mem _ hm))]

theorem splitCRLF_crlf_cons (rest : List Char) :
    splitCRLF ('\r' :: '\n' :: rest) = [] :: splitCRLF rest := by
  rw [splitCRLF, if_pos ⟨rfl, rfl⟩]

theorem splitCRLF_append {p : List Char} (rest : List Char) (hp : '\r' ∉ p) :
    splitCRLF (p ++ '\r' :: '\n' :: rest) = p :: splitCRLF rest := by
  induction p with
  | nil =>
    rw [List.nil_append, splitCRLF_crlf_cons]
  | cons c p ih =>
    have hc : ¬ c = '\r' := fun e => hp (e ▸ List.mem_cons_self c p)
    cases p with
    | nil =>
      rw [List.singleton_append, splitCRLF, if_neg (fun hand => hc hand.1),
        splitCRLF_crlf_cons]
    | cons d p' =>
      have ih' := ih (fun hm => hp (List.mem_cons_of_mem _ hm))
      rw [List.cons_append] at ih' ⊢
      rw [List.cons_append, splitCRLF, if_neg (fun hand => hc hand.1), ih']

theorem splitCRLF_rows (recs : List Participant)
    (h : ∀ r ∈ recs, goodRec r = true) :
    splitCRLF ((recs.map rowChars).flatten) = recs.map lineOf ++ [[]] := by
  induction recs with
  | nil => rfl
  | cons r rs ih =>
    have hr := h r (List.mem_cons_self r rs)
    rw [List.map_cons, List.flatten_cons, rowChars_good hr, List.append_assoc]
    rw [show crlf ++ (rs.map rowChars).flatten =
      '\r' :: '\n' :: (rs.map rowChars).flatten from rfl]
    rw [splitCRLF_append _ (lineOf_no_cr hr),
      ih (fun q hq => h q (List.mem_cons_of_mem _ hq))]
    simp

theorem parseLine_lineOf {r : Participant} (h : goodRec r = true) :
    parseLine (lineOf r) = some r := by
  obtain ⟨h1, h2, h3⟩ := goodRec_fields h
  rw [parseLine, lineOf,
    splitComma_append _ (fieldOk_not_mem h1 (by decide)),
    splitComma_append _ (fieldOk_not_mem h2 (by decide)),
    splitComma_no_comma (fieldOk_not_mem h3 (by decide))]
  show (if _ then _ else _) = _
  rw [if_pos (by rw [h1, h2, h3]; rfl)]

theorem parseLines_map (recs : List Participant)
    (h : ∀ r ∈ recs, goodRec r = true) :
    parseLines (recs.map lineOf) = some recs := by
  induction recs with
  | nil => rfl
  | cons r rs ih =>
    rw [List.map_cons, parseLines, parseLine_lineOf (h r (List.mem_cons_self r rs)),
      ih (fun q hq => h q (List.mem_cons_of_mem _ hq))]

theorem splitCRLF_write_csv (recs : List Participant)
    (h : ∀ r ∈ recs, goodRec r = true) :
    splitCRLF (write_csv recs) = headerChars :: (recs.map lineOf ++ [[]]) := by
  rw [write_csv_eq, List.append_assoc]
  rw [show crlf ++ (recs.map rowChars).flatten =
    '\r' :: '\n' :: (recs.map rowChars).flatten from rfl]
  rw [splitCRLF_append _ (by decide), splitCRLF_rows recs h]

theorem parse_write_csv (recs : List Participant)
    (h : ∀ r ∈ recs, goodRec r = true) :
    parse_csv (write_csv recs) = some recs := by
  rw [parse_csv, splitCRLF_write_csv recs h]
  simp only [List.head?_cons, List.tail_cons, List.getLast?_concat,
    List.dropLast_concat]
  rw [if_pos (by simp)]
  exact parseLines_map recs h

/-! ## Helper lemmas: generated fields never need quoting -/

theorem csvBadChar_digitChar (d : Nat) : csvBadChar (digitChar d) = false := by
  unfold digitChar
  split <;> rfl

theorem fieldOk_append (a b : List Char) :
    fieldOk (a ++ b) = (fieldOk a && fieldOk b) := by
  simp [fieldOk, List.all_append]

theorem fieldOk_toDec (n : Nat) : fieldOk (toDec n) = true := by
  induction n using Nat.strong_induction_on with
  | _ n ih =>
    by_cases h : n < 10
    · rw [toDec_small h]
      simp [fieldOk, csvBadChar_digitChar]
    · rw [toDec_big (by omega), fieldOk_append,
        ih (n / 10) (Nat.div_lt_self (by omega) (by omega))]
      simp [fieldOk, csvBadChar_digitChar]

theorem fieldOk_zfill (w : Nat) {s : List Char} (h : fieldOk s = true) :
    fieldOk (zfill w s) = true := by
  rw [zfill, fieldOk_append, h]
  have hrep : fieldOk (List.replicate (w - s.length) '0') = true := by
    rw [fieldOk, List.all_eq_true]
    intro c hc
    have hc0 := List.eq_of_mem_replicate hc
    subst hc0
    rfl
  rw [hrep]
  rfl

/-- Every record produced by `generate_participants` — for any oracles,
count and start ticket — is free of characters that would force CSV
quoting, in all three of its fields: the names come from the fixed tables
(whose entries are quoting-free by inspection) and the ticket string is
zero-padding plus decimal digits. -/
theorem goodRec_generate (rf rl : Nat → Nat) (count : Int) (s : Nat) :
    ∀ r ∈ generate_participants rf rl count s, goodRec r = true := by
  intro r hr
  unfold generate_participants at hr
  rw [List.mem_map] at hr
  obtain ⟨i, _, rfl⟩ := hr
  have h1 : ∀ t ∈ first_names, fieldOk t.data = true := by decide
  have h2 : ∀ t ∈ last_names, fieldOk t.data = true := by decide
  simp only [goodRec]
  rw [Bool.and_eq_true, Bool.and_eq_true]
  refine ⟨⟨?_, ?_⟩, ?_⟩
  · exact h1 _ (List.get_mem _ _ _)
  · exact h2 _ (List.get_mem _ _ _)
  · exact fieldOk_zfill _ (fieldOk_toDec _)

/-! ## Claim theorems -/

/-- Unfolding of `generate_participants` at a natural-number count, with
the `Int.toNat` of the cast reduced away (definitional). -/
theorem generate_natCast (rf rl : Nat → Nat) (c s : Nat) :
    generate_participants rf rl (c : Int) s = (List.range c).map (fun i =>
      { first := first_names.get
          ⟨rf i % first_names.length, Nat.mod_lt _ (by decide)⟩
        last := last_names.get
          ⟨rl i % last_names.length, Nat.mod_lt _ (by decide)⟩
        ticket_number :=
          String.mk (zfill (numDigits (s + c - 1)) (toDec (s + i))) }) := rfl

/-- C1: for every `count ≥ 0` and `start_ticket`, `generate_participants`
returns exactly `count` records; the list of `ticket_number` strings is
exactly the list, indexed by `i ∈ [0, count)` in ascending order, of the
decimal string of `start_ticket + i` zero-padded to the batch width; those
strings are pairwise distinct (no duplicates, no gaps) and their numeric
values are strictly ascending along the sequence. -/
theorem c1_generate_exact_tickets (rf rl : Nat → Nat) (c s : Nat) :
    (generate_participants rf rl (c : Int) s).length = c ∧
    (generate_participants rf rl (c : Int) s).map (fun r => r.ticket_number) =
      (List.range c).map (fun i =>
        String.mk (zfill (numDigits (s + c - 1)) (toDec (s + i)))) ∧
    ((generate_participants rf rl (c : Int) s).map
        (fun r => r.ticket_number)).Nodup ∧
    ((generate_participants rf rl (c : Int) s).map
        (fun r => r.ticket_number)).Pairwise
      (fun a b => decVal a.data < decVal b.data) := by
  have hmap : (generate_participants rf rl (c : Int) s).map
      (fun r => r.ticket_number) =
      (List.range c).map (fun i =>
        String.mk (zfill (numDigits (s + c - 1)) (toDec (s + i)))) := by
    rw [generate_natCast, List.map_map]
    rfl
  have hinj : Function.Injective (fun i : Nat =>
      String.mk (zfill (numDigits (s + c - 1)) (toDec (s + i)))) := by
    intro a b hab
    have h2 : decVal (zfill (numDigits (s + c - 1)) (toDec (s + a))) =
        decVal (zfill (numDigits (s + c - 1)) (toDec (s + b))) :=
      congrArg (fun t : String => decVal t.data) hab
    rw [decVal_zfill_toDec, decVal_zfill_toDec] at h2
    omega
  refine ⟨?_, hmap, ?_, ?_⟩
  · rw [generate_natCast]
    simp
  · rw [hmap]
    exact (List.nodup_range c).map hinj
  · rw [hmap, List.pairwise_map]
    refine (List.pairwise_lt_range c).imp ?_
    intro i j hij
    show decVal (zfill (numDigits (s + c - 1)) (toDec (s + i))) <
      decVal (zfill (numDigits (s + c - 1)) (toDec (s + j)))
    rw [decVal_zfill_toDec, decVal_zfill_toDec]
    omega

/-- C2: for `count ≥ 1` and `start_ticket ≥ 1`, every `ticket_number` in a
batch has the same string length, equal to the number of decimal digits of
`start_ticket + count - 1`, the last ticket number of the range. -/
theorem c2_padding_width (rf rl : Nat → Nat) (c s : Nat) (hc : 1 ≤ c)
    (hs : 1 ≤ s) (r : Participant)
    (hr : r ∈ generate_participants rf rl (c : Int) s) :
    r.ticket_number.length = numDigits (s + c - 1) := by
  rw [generate_natCast, List.mem_map] at hr
  obtain ⟨i, hi, rfl⟩ := hr
  rw [List.mem_range] at hi
  show (zfill (numDigits (s + c - 1)) (toDec (s + i))).length =
    numDigits (s + c - 1)
  exact zfill_toDec_length (by omega)

theorem c2_padding_width_witness :
    ((1 ≤ 3 ∧ 1 ≤ 10001) ∧
      (⟨"James", "Smith", "10001"⟩ : Participant) ∈
        generate_participants (fun _ => 0) (fun _ => 0) ((3 : Nat) : Int) 10001) ∧
    (⟨"James", "Smith", "10001"⟩ : Participant).ticket_number.length =
      numDigits (10001 + 3 - 1) :=
  ⟨⟨⟨by decide, by decide⟩, by decide⟩,
    c2_padding_width (fun _ => 0) (fun _ => 0) 3 10001 (by decide) (by decide)
      _ (by decide)⟩

/-- C3: for records whose fields never trigger quoting (as is the case for
all fixed-table names and ticket digits), parsing the file written by
`write_csv` yields the records back, so re-serializing the parse result
reproduces the file byte for byte. -/
theorem c3_roundtrip (recs : List Participant)
    (h : ∀ r ∈ recs, goodRec r = true) :
    parse_csv (write_csv recs) = some recs ∧
    (parse_csv (write_csv recs)).map write_csv = some (write_csv recs) := by
  have hp := parse_write_csv recs h
  exact ⟨hp, by rw [hp]; rfl⟩

theorem c3_roundtrip_witness :
    (∀ r ∈ [(⟨"Ann", "Lee", "10001"⟩ : Participant)], goodRec r = true) ∧
    (parse_csv (write_csv [(⟨"Ann", "Lee", "10001"⟩ : Participant)])).map
        write_csv =
      some (write_csv [(⟨"Ann", "Lee", "10001"⟩ : Participant)]) :=
  ⟨by decide, (c3_roundtrip [⟨"Ann", "Lee", "10001"⟩] (by decide)).2⟩

/-- C4: `write_csv` produces the header row `first,last,ticket_number`
followed by exactly one CRLF-terminated data row per record, in input
order; each field is serialized with RFC-4180-style quoting — quoted with
doubled inner quotes exactly when it contains the delimiter, the quote
character, or a line break, and written verbatim otherwise. -/
theorem c4_write_structure (recs : List Participant) :
    write_csv recs = headerChars ++ crlf ++ (recs.map rowChars).flatten ∧
    (∀ f : List Char, needsQuote f = false → pyField f = f) ∧
    (∀ f : List Char, needsQuote f = true →
      pyField f = '"' :: (escQuotes f ++ ['"'])) := by
  refine ⟨write_csv_eq recs, ?_, ?_⟩
  · intro f hf
    simp [pyField, hf]
  · intro f hf
    simp [pyField, hf]

theorem c4_write_structure_witness :
    needsQuote ("a,b".data) = true ∧
      pyField ("a,b".data) = '"' :: (escQuotes ("a,b".data) ++ ['"']) :=
  ⟨by decide, (c4_write_structure []).2.2 ("a,b".data) (by decide)⟩

/-- C5: `main` performs exactly five batches, in order, with exactly the
configured `(filename, count, start_ticket)` triples, whose last ticket
numbers `start_ticket + count - 1` are 15000, 30000, 75000, 150000 and
300000 respectively. -/
theorem c5_batch_configuration :
    batches.length = 5 ∧
    batches.map (fun b => b.1) = ["raffle-5k.csv", "raffle-10k.csv",
      "raffle-25k.csv", "raffle-50k.csv", "raffle-100k.csv"] ∧
    batches.map (fun b => b.2.1) = [5000, 10000, 25000, 50000, 100000] ∧
    batches.map (fun b => b.2.2) = [10001, 20001, 50001, 100001, 200001] ∧
    batches.map (fun b => b.2.2 + b.2.1 - 1) =
      [15000, 30000, 75000, 150000, 300000] := by
  decide

/-- C6 counterexample: called with the negative count `-1`, the generator
does not fail with any error — `for i in range(-1)` performs zero
iterations, so the call returns normally with the empty list. -/
theorem c6_counterexample :
    generate_participants (fun _ => 0) (fun _ => 0) (-1) 1 = [] := rfl

/-- C6 (amended): `generate_participants` has no error condition at all;
for every negative count it returns normally with the empty sequence
(no partial output, no `InvalidArgument` failure). -/
theorem c6_negative_count_no_error (rf rl : Nat → Nat) (count : Int)
    (s : Nat) (h : count < 0) :
    generate_participants rf rl count s = [] := by
  unfold generate_participants
  rw [Int.toNat_of_nonpos (by omega)]
  rfl

theorem c6_negative_count_no_error_witness :
    ((-2 : Int) < 0) ∧
      generate_participants (fun _ => 1) (fun _ => 1) (-2) 5 = [] :=
  ⟨by decide, c6_negative_count_no_error (fun _ => 1) (fun _ => 1) (-2) 5
    (by decide)⟩

/-- C7: with `count = 0` the generator returns the empty list and writing
that batch produces a header-only file (header row plus CRLF, no data
rows); no fault arises — in particular the padding-width computation only
occurs inside the per-record function, which is never applied. -/
theorem c7_zero_count_header_only (rf rl : Nat → Nat) (s : Nat) :
    generate_participants rf rl 0 s = [] ∧
    write_csv (generate_participants rf rl 0 s) = headerChars ++ crlf :=
  ⟨rfl, rfl⟩

/-- C8: every generated record draws `first` from the fixed `first_names`
table and `last` from the fixed `last_names` table — no generated record
contains a name outside the configured sets. -/
theorem c8_names_from_tables (rf rl : Nat → Nat) (count : Int) (s : Nat)
    (r : Participant) (hr : r ∈ generate_participants rf rl count s) :
    r.first ∈ first_names ∧ r.last ∈ last_names := by
  unfold generate_participants at hr
  rw [List.mem_map] at hr
  obtain ⟨i, _, rfl⟩ := hr
  exact ⟨List.get_mem _ _ _, List.get_mem _ _ _⟩

theorem c8_names_from_tables_witness :
    ((⟨"James", "Smith", "10001"⟩ : Participant) ∈
        generate_participants (fun _ => 0) (fun _ => 0) ((3 : Nat) : Int)
          10001) ∧
      ("James" ∈ first_names ∧ "Smith" ∈ last_names) :=
  ⟨by decide,
    c8_names_from_tables (fun _ => 0) (fun _ => 0) ((3 : Nat) : Int) 10001
      ⟨"James", "Smith", "10001"⟩ (by decide)⟩

/-- C9 counterexample: the two name tables do not both have 56 entries —
`last_names` (its second row has only seven names) has 55. -/
theorem c9_counterexample :
    ¬ (first_names.length = 56 ∧ last_names.length = 56) := by
  decide

/-- C9 (amended): `first_names` has exactly 56 entries and `last_names`
exactly 55; every entry is non-empty and no entry contains a comma, a
double quote, or a line-break character — hence both tables are non-empty
(so uniform random choice is always defined) and no field of any record
produced by `generate_participants` — `first`, `last` or `ticket_number`,
for any oracles, count and start ticket — ever requires CSV quoting or
escaping (`pyField` leaves each field unchanged). -/
theorem c9_name_tables :
    first_names.length = 56 ∧ last_names.length = 55 ∧
    (∀ s ∈ first_names, s ≠ "" ∧ fieldOk s.data = true) ∧
    (∀ s ∈ last_names, s ≠ "" ∧ fieldOk s.data = true) ∧
    (∀ s ∈ first_names, pyField s.data = s.data) ∧
    (∀ s ∈ last_names, pyField s.data = s.data) ∧
    (∀ (rf rl : Nat → Nat) (count : Int) (s : Nat),
      ∀ r ∈ generate_participants rf rl count s,
        pyField r.first.data = r.first.data ∧
        pyField r.last.data = r.last.data ∧
        pyField r.ticket_number.data = r.ticket_number.data) := by
  refine ⟨by decide, by decide, by decide, by decide, by decide, by decide, ?_⟩
  intro rf rl count s r hr
  obtain ⟨hf, hl, ht⟩ := goodRec_fields (goodRec_generate rf rl count s r hr)
  exact ⟨pyField_of_fieldOk hf, pyField_of_fieldOk hl, pyField_of_fieldOk ht⟩

theorem c9_name_tables_witness :
    ((⟨"Mary", "Johnson", "10001"⟩ : Participant) ∈
        generate_participants (fun _ => 1) (fun _ => 1) ((1 : Nat) : Int)
          10001) ∧
      (pyField ("Mary".data) = "Mary".data ∧
        pyField ("Johnson".data) = "Johnson".data ∧
        pyField ("10001".data) = "10001".data) :=
  ⟨by decide,
    c9_name_tables.2.2.2.2.2.2 (fun _ => 1) (fun _ => 1) ((1 : Nat) : Int)
      10001 ⟨"Mary", "Johnson", "10001"⟩ (by decide)⟩

/-- C10: for every count ≤ 0 (including every negative count) and any
start ticket, `generate_participants` returns the empty sequence without
any error, and writing that batch still produces a header-only file. -/
theorem c10_nonpositive_count (rf rl : Nat → Nat) (count : Int) (s : Nat)
    (h : count ≤ 0) :
    generate_participants rf rl count s = [] ∧
    write_csv (generate_participants rf rl count s) = headerChars ++ crlf := by
  have he : generate_participants rf rl count s = [] := by
    unfold generate_participants
    rw [Int.toNat_of_nonpos h]
    rfl
  exact ⟨he, by rw [he]; rfl⟩

theorem c10_nonpositive_count_witness :
    ((-5 : Int) ≤ 0) ∧
      (generate_participants (fun _ => 2) (fun _ => 3) (-5) 42 = [] ∧
        write_csv (generate_participants (fun _ => 2) (fun _ => 3) (-5) 42) =
          headerChars ++ crlf) :=
  ⟨by decide, c10_nonpositive_count (fun _ => 2) (fun _ => 3) (-5) 42
    (by decide)⟩

end RaffleCsv
